import Mathlib

/-!
Shallow embedding of `src/lib/goal/Jenkins.ts` from atomist/sdm-pack-jenkins.

The TypeScript routine `executeJenkins` resolves a job name, reconciles the
job definition on a Jenkins server, triggers a build, correlates the queue
item into a running build, streams the log, maps the terminal result and
reports build status to a webhook backend.  All remote calls, progress-log
writes and webhook posts are modelled as an explicit event trace; the
asynchronous collaborator (the Jenkins server) is modelled as a record of
the responses it gives during one execution (`JenkinsEnv`).  JavaScript
truthiness of the relevant values (empty string, zero, `undefined`) is
modelled explicitly where the source relies on it.
-/

namespace SdmJenkins

/-- The `SdmGoalState` string enum from @atomist/sdm (only the members this pack
uses, plus `canceled`/`requested` for context). -/
inductive SdmGoalState where
  | success
  | failure
  | stopped
  | canceled
  | requested
deriving DecidableEq, Repr

/-- Repository identity carried on the goal event (`sdmGoal.repo`). -/
structure RepoId where
  owner : String
  name : String
deriving DecidableEq, Repr

/-- The fields of the SDM goal event read or written by `Jenkins.ts`:
`repo`, `sha`, `branch` and the mutable `description`. -/
structure GoalEvent where
  repo : RepoId
  sha : String
  branch : String
  description : Option String
deriving DecidableEq, Repr

/-- Shape of `registration.server` and of the `sdm.jenkins` configuration object:
optional url, user and password.  `none` models an absent (undefined)
property. -/
structure ServerOptions where
  url : Option String
  user : Option String
  password : Option String
deriving DecidableEq, Repr

/-- Process-wide configuration; the source only reads the path
`sdm.jenkins` (via `_.get(configuration, "sdm.jenkins")`). -/
structure Configuration where
  sdmJenkins : Option ServerOptions
deriving DecidableEq, Repr

/-- The parts of the `GoalInvocation` the source destructures:
`goalEvent`, `context.workspaceId` and `configuration`.  The progress log
is modelled as trace output rather than a field. -/
structure GoalInvocation where
  goalEvent : GoalEvent
  workspaceId : String
  configuration : Configuration
deriving DecidableEq, Repr

/-- A `string | function` registration field (`job`, `definition`):
either a static string or a function of the invocation, mirroring the
`typeof === "string"` dispatch in the source. -/
inductive StrOrFn where
  | str (s : String)
  | fn (f : GoalInvocation → String)

/-- The `parameters` field: a static record or a function of the invocation. -/
inductive ParamsSpec where
  | obj (m : List (String × String))
  | fn (f : GoalInvocation → List (String × String))

/-- The `JenkinsRegistration` options record: the per-goal registration options. -/
structure JenkinsRegistration where
  job : Option StrOrFn
  convergeOnly : Option Bool
  parameters : Option ParamsSpec
  definition : Option StrOrFn
  server : Option ServerOptions

/-- The `item.executable` object on a queue-item response: build number and url. -/
structure QueueExecutable where
  number : Nat
  url : String
deriving DecidableEq, Repr

/-- One `js.queue.item(build)` response body; `executable` is absent until
the build is scheduled. -/
structure QueueItemResp where
  executable : Option QueueExecutable
deriving DecidableEq, Repr

/-- One event on the `js.build.logStream` stream before `end`. -/
inductive LogEvent where
  | chunk (text : String)
  | err (e : String)
deriving DecidableEq, Repr

/-- The `js.build.get` response: terminal `result` code and build `url`. -/
structure BuildDetail where
  result : String
  url : String
deriving DecidableEq, Repr

/-- The responses the remote Jenkins server gives during one execution:
the `job.exists` answer, the `job.build` acknowledgment (`none` models a
NaN/invalid queue id), the successive `queue.item` responses (each `none`
models a null/undefined item), the log-stream events before `end`, and
the terminal `build.get` detail. -/
structure JenkinsEnv where
  jobExists : Bool
  buildAck : Option Nat
  queueResponses : List (Option QueueItemResp)
  logEvents : List LogEvent
  buildDetail : BuildDetail
deriving Repr

/-- The webhook document built by `updateBuildStatus`.  The two timestamp
fields are modelled by presence flags, since exactly one of
`started_at`/`finished_at` is populated depending on the status. -/
structure BuildStatusData where
  ownerName : String
  repoName : String
  name : String
  number : Nat
  type : String
  buildUrl : String
  status : Option String
  commit : String
  branch : String
  provider : String
  hasStartedAt : Bool
  hasFinishedAt : Bool
deriving DecidableEq, Repr

/-- Observable actions of one execution: the connection to the server, each
progress-log write, each remote Jenkins call, each fixed delay, and each
webhook post. -/
inductive Event where
  | connect (url : String) (user : Option String) (password : Option String)
  | progressWrite (line : String)
  | jobExistsCheck (job : String)
  | jobCreate (job : String) (definition : String)
  | jobConfig (job : String) (definition : String)
  | buildTrigger (job : String) (parameters : Option (List (String × String)))
  | queuePoll (queueId : Nat)
  | sleep (ms : Nat)
  | webhook (team : String) (payload : BuildStatusData)
deriving DecidableEq, Repr

/-- Helper `codeLine` from @atomist/slack-messages: wrap in backticks. -/
def codeLine (s : String) : String := "`" ++ s ++ "`"

/-- Modelled from the spec: `serializeResult` is an external helper of the
host framework that serializes a stream error to diagnostic text; the
payload is modelled as the already-serialized text. -/
def serializeResult (e : String) : String := e

/-- Job name resolution (`getJobName`): a truthy static string is used verbatim (the empty string
is falsy in JS and falls through), a function is invoked with the
invocation, otherwise the repository name is used. -/
def getJobName (registration : JenkinsRegistration) (gi : GoalInvocation) : String :=
  match registration.job with
  | some (StrOrFn.str s) => if s = "" then gi.goalEvent.repo.name else s
  | some (StrOrFn.fn f) => f gi
  | none => gi.goalEvent.repo.name

/-- Parameter resolution (`getParameters`): returns the resolved parameters, or `none`
(undefined) when the registration supplies none. -/
def getParameters (registration : JenkinsRegistration) (gi : GoalInvocation) :
    Option (List (String × String)) :=
  match registration.parameters with
  | none => none
  | some (ParamsSpec.fn f) => some (f gi)
  | some (ParamsSpec.obj m) => some m

/-- JS truthiness of `registration.definition`: absent and the empty
string are falsy, a non-empty string or any function is truthy. -/
def definitionTruthy (registration : JenkinsRegistration) : Bool :=
  match registration.definition with
  | none => false
  | some (StrOrFn.str s) => s ≠ ""
  | some (StrOrFn.fn _) => true

/-- Resolution of the (truthy) `registration.definition`. -/
def resolveDefinition (registration : JenkinsRegistration) (gi : GoalInvocation) : String :=
  match registration.definition with
  | some (StrOrFn.str s) => s
  | some (StrOrFn.fn f) => f gi
  | none => ""

/-- Rendering `JSON.stringify` of a flat string record, as produced by the `'%j'`
format specifier (escaping is not modelled; keys and values in scope are
plain). -/
def paramsJson : List (String × String) → String
  | [] => "\x7b\x7d"
  | ps => "\x7b" ++ String.intercalate "," (ps.map fun p => "\"" ++ p.1 ++ "\":\"" ++ p.2 ++ "\"") ++ "\x7d"

/-- One source merge step per field of lodash `_.merge`: a defined value
of the later source overrides, an undefined one is skipped. -/
def mergeField (dst src : Option String) : Option String :=
  match src with
  | some v => some v
  | none => dst

/-- The merge of server options, `_.merge` of an empty object, then
`registration.server`, then `_.get(configuration, "sdm.jenkins")`:
the configuration object is the later source, so its defined fields
override the registration's. -/
def serverOf (registration : JenkinsRegistration) (configuration : Configuration) : ServerOptions :=
  let base := match registration.server with
    | none => { url := none, user := none, password := none }
    | some s => s
  match configuration.sdmJenkins with
  | none => base
  | some cfg =>
    { url := mergeField base.url cfg.url
      user := mergeField base.user cfg.user
      password := mergeField base.password cfg.password }

/-- JS truthiness of `server.url` in `if (!server.url)`: undefined and the
empty string are falsy. -/
def urlTruthy : Option String → Bool
  | none => false
  | some u => u ≠ ""

/-- The message of the error thrown when no server url is configured. -/
def serverUrlErrorMessage : String :=
  "Jenkins server configuration incomplete. Please configure your server url at 'sdm.jenkins.url'"

/-- Rendering `util.format` of the possibly-undefined goal state
(`SdmGoalState` is a string enum in the source). -/
def showGoalState : Option SdmGoalState → String
  | none => "undefined"
  | some SdmGoalState.success => "success"
  | some SdmGoalState.failure => "failure"
  | some SdmGoalState.stopped => "stopped"
  | some SdmGoalState.canceled => "canceled"
  | some SdmGoalState.requested => "requested"

/-- Rendering of the possibly-undefined `status` in the template literal
for the final description. -/
def showStatus : Option String → String
  | none => "undefined"
  | some s => s

/-- The formatted line `"Starting Jenkins job '%s' with parameters '%j'"`
with `parameters || {}`. -/
def startingJobLine (jobName : String) (parameters : Option (List (String × String))) : String :=
  "Starting Jenkins job '" ++ jobName ++ "' with parameters '" ++ paramsJson (parameters.getD []) ++ "'"

/-- The formatted line `"Jenkins job '%s' started with build id '%s'"`
with `item.id || "<unkown>"` (sic, typo in the source). -/
def startedJobLine (jobName : String) (id : Nat) : String :=
  "Jenkins job '" ++ jobName ++ "' started with build id '" ++
    (if id = 0 then "<unkown>" else toString id) ++ "'"

/-- The formatted line `"Jenkins job '%s' completed with %s"`. -/
def completedJobLine (jobName : String) (state : Option SdmGoalState) : String :=
  "Jenkins job '" ++ jobName ++ "' completed with " ++ showGoalState state

/-- The formatted line `"Not starting Jenkins job '%s'"`. -/
def notStartingLine (jobName : String) : String :=
  "Not starting Jenkins job '" ++ jobName ++ "'"

/-- The formatted line `"Updating definition of Jenkins job '%s'"`. -/
def updatingLine (jobName : String) : String :=
  "Updating definition of Jenkins job '" ++ jobName ++ "'"

/-- The formatted line for the no-definition branch. -/
def notUpdatingLine (jobName : String) : String :=
  "Not updating definition of Jenkins job '" ++ jobName ++ "' as no definition was provided."

/-- The three progress-log writes of one phase block: the slash-dash-dash
opening marker line, the one content line, and the backslash-dash-dash
closing marker line (every block the source writes has exactly one
content line). -/
def framed (line : String) : List Event :=
  [Event.progressWrite "/--", Event.progressWrite line, Event.progressWrite "\\--"]

/-- Definition reconciliation (`createOrUpdateJob`): when a (truthy) definition is supplied, check
existence and overwrite (`job.config`) or create (`job.create`); either
way write a framed progress block. -/
def createOrUpdateJob (jobName : String) (registration : JenkinsRegistration)
    (gi : GoalInvocation) (env : JenkinsEnv) : List Event :=
  if definitionTruthy registration then
    Event.jobExistsCheck jobName ::
      (if env.jobExists then [Event.jobConfig jobName (resolveDefinition registration gi)]
       else [Event.jobCreate jobName (resolveDefinition registration gi)]) ++
      framed (updatingLine jobName)
  else
    framed (notUpdatingLine jobName)

/-- The do-while condition of `triggerJob`'s poll loop, negated: the loop
exits when the item is truthy, has an executable, and the executable's
build number is truthy (non-zero). -/
def pollOk : Option QueueItemResp → Bool
  | none => false
  | some item =>
    match item.executable with
    | none => false
    | some ex => ex.number != 0

/-- The executable carried by a queue-item response, when any. -/
def pollExec : Option QueueItemResp → Option QueueExecutable
  | none => none
  | some item => item.executable

/-- The queue-correlation do-while loop: each iteration polls
`queue.item` then sleeps 500 ms, and the loop exits once a response
passes `pollOk`.  `none` as second component means the provided response
sequence was exhausted without resolution (the real loop would keep
polling forever). -/
def pollQueue (queueId : Nat) : List (Option QueueItemResp) → List Event × Option QueueExecutable
  | [] => ([], none)
  | r :: rs =>
    if pollOk r then ([Event.queuePoll queueId, Event.sleep 500], pollExec r)
    else
      let next := pollQueue queueId rs
      (Event.queuePoll queueId :: Event.sleep 500 :: next.1, next.2)

/-- The build reference (id and url taken from the queue item's
executable) returned by `triggerJob` on resolution. -/
structure BuildRef where
  id : Nat
  url : String
deriving DecidableEq, Repr

/-- Result of `triggerJob`: `undefined` on a NaN acknowledgment, a build
reference on resolution, or non-termination within the provided
responses. -/
inductive TriggerOutcome where
  | invalidAck
  | resolved (ref : BuildRef)
  | unresolved
deriving DecidableEq, Repr

/-- Trigger submission (`triggerJob`): submit the build request; on a NaN acknowledgment return
`undefined` without polling, otherwise run the queue-correlation loop. -/
def triggerJob (jobName : String) (parameters : Option (List (String × String)))
    (env : JenkinsEnv) : List Event × TriggerOutcome :=
  match env.buildAck with
  | none => ([Event.buildTrigger jobName parameters], TriggerOutcome.invalidAck)
  | some queueId =>
    let polled := pollQueue queueId env.queueResponses
    match polled.2 with
    | some ex =>
      (Event.buildTrigger jobName parameters :: polled.1,
       TriggerOutcome.resolved { id := ex.number, url := ex.url })
    | none => (Event.buildTrigger jobName parameters :: polled.1, TriggerOutcome.unresolved)

/-- The webhook document of `updateBuildStatus`. -/
def buildStatusData (status : Option String) (sdmGoal : GoalEvent) (url : String)
    (buildNo : Nat) : BuildStatusData :=
  { ownerName := sdmGoal.repo.owner
    repoName := sdmGoal.repo.name
    name := "Build #" ++ toString buildNo
    number := buildNo
    type := "push"
    buildUrl := url
    status := status
    commit := sdmGoal.sha
    branch := sdmGoal.branch
    provider := "jenkins"
    hasStartedAt := status == some "started"
    hasFinishedAt := !(status == some "started") }

/-- Status reporting (`updateBuildStatus`): post the build-status document to the webhook for
the workspace. -/
def updateBuildStatus (status : Option String) (sdmGoal : GoalEvent) (url : String)
    (buildNo : Nat) (team : String) : Event :=
  Event.webhook team (buildStatusData status sdmGoal url buildNo)

/-- The `switch (result.result)` outcome mapping: terminal result code to
(reported status, goal state); both stay undefined on any other code. -/
def mapOutcome (result : String) : Option String × Option SdmGoalState :=
  if result = "SUCCESS" then (some "passed", some SdmGoalState.success)
  else if result = "ABORTED" then (some "canceled", some SdmGoalState.stopped)
  else if result = "FAILURE" then (some "failed", some SdmGoalState.failure)
  else (none, none)

/-- The progress-log writes of the log stream: each data chunk verbatim,
each stream error serialized; the `end` event resolves the wait. -/
def logStreamWrites : List LogEvent → List Event
  | [] => []
  | LogEvent.chunk t :: rest => Event.progressWrite t :: logStreamWrites rest
  | LogEvent.err e :: rest => Event.progressWrite (serializeResult e) :: logStreamWrites rest

/-- The value returned by the goal executor. -/
structure GoalExecResult where
  state : Option SdmGoalState
  description : String
  externalUrls : Option (List (String × String))
deriving DecidableEq, Repr

/-- How one execution of `executeJenkins` ends: a thrown error, the poll
loop failing to resolve within the provided responses, or a returned
result. -/
inductive ExecOutcome where
  | thrown (message : String)
  | diverged
  | done (result : GoalExecResult)
deriving DecidableEq, Repr

/-- The goal executor `executeJenkins`.  Returns how the execution ends,
the goal event as left behind (its `description` is assigned), and the
trace of observable actions. -/
def executeJenkins (registration : JenkinsRegistration) (env : JenkinsEnv)
    (gi : GoalInvocation) : ExecOutcome × GoalEvent × List Event :=
  let server := serverOf registration gi.configuration
  if urlTruthy server.url then
    let connectEv := Event.connect (server.url.getD "") server.user server.password
    let jobName := getJobName registration gi
    let parameters := getParameters registration gi
    let goalEvent := { gi.goalEvent with description := some ("Jenkins " ++ codeLine jobName) }
    let couEvents := createOrUpdateJob jobName registration gi env
    if registration.convergeOnly ≠ some true then
      let startBlock := framed (startingJobLine jobName parameters)
      let trig := triggerJob jobName parameters env
      match trig.2 with
      | TriggerOutcome.resolved item =>
        let startedBlock := framed (startedJobLine jobName item.id)
        let startedWebhook := updateBuildStatus (some "started") goalEvent item.url item.id gi.workspaceId
        let logWrites := logStreamWrites env.logEvents
        let mapped := mapOutcome env.buildDetail.result
        let completedBlock := framed (completedJobLine jobName mapped.2)
        let terminalWebhook := updateBuildStatus mapped.1 goalEvent item.url item.id gi.workspaceId
        (ExecOutcome.done
          { state := mapped.2
            description := "Jenkins " ++ codeLine jobName ++ " " ++ showStatus mapped.1
            externalUrls := some [("Log", env.buildDetail.url)] },
         goalEvent,
         connectEv :: couEvents ++ startBlock ++ trig.1 ++ startedBlock ++
           [startedWebhook] ++ logWrites ++ completedBlock ++ [terminalWebhook])
      | TriggerOutcome.invalidAck =>
        (ExecOutcome.done
          { state := some SdmGoalState.success
            description := "Jenkins " ++ codeLine jobName ++ " triggered"
            externalUrls := none },
         goalEvent,
         connectEv :: couEvents ++ startBlock ++ trig.1)
      | TriggerOutcome.unresolved =>
        (ExecOutcome.diverged, goalEvent, connectEv :: couEvents ++ startBlock ++ trig.1)
    else
      (ExecOutcome.done
        { state := some SdmGoalState.success
          description := "Jenkins " ++ codeLine jobName ++ " converged"
          externalUrls := none },
       goalEvent,
       connectEv :: couEvents ++ framed (notStartingLine jobName))
  else
    (ExecOutcome.thrown serverUrlErrorMessage, gi.goalEvent, [])

/-- One element of a (simplified) regular expression: a literal character
or an unbounded any-character wildcard (the `.*` of the source patterns;
the emitted lines contain no newline, so the dot/newline distinction is
immaterial). -/
inductive RElem where
  | lit (c : Char)
  | star
deriving DecidableEq, Repr

/-- Fuel-indexed matcher for the simplified patterns: a pattern matches a
character list when it consumes it entirely. -/
def rmatchFuel : Nat → List RElem → List Char → Bool
  | 0, _, _ => false
  | _ + 1, [], [] => true
  | _ + 1, [], _ :: _ => false
  | _ + 1, RElem.lit _ :: _, [] => false
  | f + 1, RElem.lit c :: ps, x :: xs => c == x && rmatchFuel f ps xs
  | f + 1, RElem.star :: ps, [] => rmatchFuel f ps []
  | f + 1, RElem.star :: ps, x :: xs =>
    rmatchFuel f ps (x :: xs) || rmatchFuel f (RElem.star :: ps) xs

/-- Total matcher: every recursive step of `rmatchFuel` shrinks the
combined length of pattern and input, so this fuel always suffices. -/
def rmatch (ps : List RElem) (xs : List Char) : Bool :=
  rmatchFuel (ps.length + xs.length + 1) ps xs

/-- A literal (already lowercased) run of pattern characters. -/
def litPat (s : String) : List RElem := s.data.map RElem.lit

/-- JS `RegExp.test` with the `i` flag for the simplified patterns:
unanchored (wildcards on both sides) case-insensitive match. -/
def regexTest (p : List RElem) (line : String) : Bool :=
  rmatch (RElem.star :: p ++ [RElem.star]) (line.data.map Char.toLower)

/-- Pattern of `/Starting Jenkins job/i`. -/
def queuedPattern : List RElem := litPat "starting jenkins job"

/-- Pattern of `/Jenkins job '.*' started/i`. -/
def startedPattern : List RElem :=
  litPat "jenkins job '" ++ [RElem.star] ++ litPat "' started"

/-- Pattern of the pipeline-stage test without the optional
`Declarative: ` group. -/
def pipelinePatternPlain : List RElem :=
  litPat "[pipeline] \x7b (" ++ [RElem.star] ++ litPat ")"

/-- Pattern of the pipeline-stage test with the optional `Declarative: `
group taken. -/
def pipelinePatternDecl : List RElem :=
  litPat "[pipeline] \x7b (declarative: " ++ [RElem.star] ++ litPat ")"

/-- Pattern of `/Jenkins job '%s' complated with/i` (sic: the source
regex contains the literal characters `%s` and the misspelling
`complated`). -/
def completedPattern : List RElem := litPat "jenkins job '%s' complated with"

/-- One entry of the progress tests: a line test and the phase it maps
to. -/
structure ProgressTest where
  test : String → Bool
  phase : String

/-- The `JenkinsProgressTests` list: the four phase-detection tests, in source
order.  The optional group of the pipeline regex is modelled as the
alternation of its two expansions. -/
def JenkinsProgressTests : List ProgressTest :=
  [ { test := regexTest queuedPattern, phase := "queued" },
    { test := regexTest startedPattern, phase := "started" },
    { test := fun l => regexTest pipelinePatternDecl l || regexTest pipelinePatternPlain l,
      phase := "$1" },
    { test := regexTest completedPattern, phase := "completed" } ]

/-- Whether an event is a queue poll. -/
def isQueuePollEv : Event → Bool
  | Event.queuePoll _ => true
  | _ => false

/-- Whether an event is a 500 ms delay. -/
def isSleepEv : Event → Bool
  | Event.sleep _ => true
  | _ => false

/-- Whether an event is a build-trigger call. -/
def isTriggerEv : Event → Bool
  | Event.buildTrigger _ _ => true
  | _ => false

/-- Whether an event is one of the two remote definition writes (job
create or config overwrite). -/
def isRemoteWriteEv : Event → Bool
  | Event.jobCreate _ _ => true
  | Event.jobConfig _ _ => true
  | _ => false

/-- Whether an event is any remote Jenkins call issued by the
reconciler (existence check, create, or config overwrite). -/
def isReconcileRemoteEv : Event → Bool
  | Event.jobExistsCheck _ => true
  | Event.jobCreate _ _ => true
  | Event.jobConfig _ _ => true
  | _ => false

/-- The build-status documents posted during a trace, in emission
order. -/
def statusEvents (trace : List Event) : List BuildStatusData :=
  trace.filterMap fun e =>
    match e with
    | Event.webhook _ payload => some payload
    | _ => none

/-- Whether a reported status value is terminal (passed, failed,
canceled, or error), as opposed to `started` or undefined. -/
def isTerminalStatus (status : Option String) : Bool :=
  status == some "passed" || status == some "failed" ||
    status == some "canceled" || status == some "error"

/-- The events of `N` poll-loop iterations: a queue poll followed by the
fixed 500 ms delay, `N` times. -/
def pollIterations (queueId : Nat) (n : Nat) : List Event :=
  (List.replicate n [Event.queuePoll queueId, Event.sleep 500]).flatten

/-! Concrete fixtures used to evaluate the embedding on explicit inputs. -/

/-- A concrete repository identity. -/
def repoApp : RepoId := { owner := "org", name := "app" }

/-- A concrete goal event for `repoApp` with no description yet. -/
def goalEventApp : GoalEvent :=
  { repo := repoApp, sha := "cafebabe", branch := "master", description := none }

/-- A process configuration supplying only the server url. -/
def cfgJenkins : Configuration :=
  { sdmJenkins := some { url := some "http://jenkins.example/", user := none, password := none } }

/-- A concrete invocation built from the pieces above. -/
def giApp : GoalInvocation :=
  { goalEvent := goalEventApp, workspaceId := "T123", configuration := cfgJenkins }

/-- A minimal registration naming the job `app` statically. -/
def regApp : JenkinsRegistration :=
  { job := some (StrOrFn.str "app"), convergeOnly := none, parameters := none,
    definition := none, server := none }

/-- A server environment for a successful run: queue id 42, the executable
appearing on the third queue poll as build 7, two log chunks, terminal
result `SUCCESS`. -/
def envSuccess : JenkinsEnv :=
  { jobExists := false
    buildAck := some 42
    queueResponses :=
      [none, some { executable := none },
       some { executable := some { number := 7, url := "http://jenkins.example/job/app/7/" } }]
    logEvents := [LogEvent.chunk "line one", LogEvent.chunk "line two"]
    buildDetail := { result := "SUCCESS", url := "http://jenkins.example/job/app/7/console" } }

/-- A server environment whose trigger acknowledgment is NaN. -/
def envInvalidAck : JenkinsEnv :=
  { jobExists := false, buildAck := none, queueResponses := [], logEvents := [],
    buildDetail := { result := "SUCCESS", url := "" } }

/-- A registration that supplies its own server url and user. -/
def regServerBoth : JenkinsRegistration :=
  { job := some (StrOrFn.str "app"), convergeOnly := some true, parameters := none,
    definition := none,
    server := some { url := some "http://registration.example/", user := some "reg-user",
                     password := none } }

/-- A process configuration that also supplies a url, plus a password. -/
def cfgOverride : Configuration :=
  { sdmJenkins := some { url := some "http://config.example/", user := none,
                         password := some "cfg-pass" } }

/-- The invocation pairing `goalEventApp` with `cfgOverride`. -/
def giOverride : GoalInvocation :=
  { goalEvent := goalEventApp, workspaceId := "T123", configuration := cfgOverride }

/-- A registration whose definition is the empty string (a supplied, but
JS-falsy, definition). -/
def regEmptyDefinition : JenkinsRegistration :=
  { job := some (StrOrFn.str "app"), convergeOnly := some true, parameters := none,
    definition := some (StrOrFn.str ""), server := none }

/-- The goal event as left behind by a run for job `app`: the description
has been assigned. -/
def goalEventAppAfter : GoalEvent :=
  { repo := repoApp, sha := "cafebabe", branch := "master",
    description := some ("Jenkins " ++ codeLine "app") }

/-- The `started` status document of the successful concrete run. -/
def startedDataApp : BuildStatusData :=
  buildStatusData (some "started") goalEventAppAfter "http://jenkins.example/job/app/7/" 7

/-- The terminal `passed` status document of the successful concrete run. -/
def passedDataApp : BuildStatusData :=
  buildStatusData (some "passed") goalEventAppAfter "http://jenkins.example/job/app/7/" 7

/-! Helper lemmas about the projection to status events. -/

@[simp]
theorem statusEvents_nil : statusEvents [] = [] := rfl

@[simp]
theorem statusEvents_connect (u : String) (a b : Option String) (l : List Event) :
    statusEvents (Event.connect u a b :: l) = statusEvents l := rfl

@[simp]
theorem statusEvents_progressWrite (s : String) (l : List Event) :
    statusEvents (Event.progressWrite s :: l) = statusEvents l := rfl

@[simp]
theorem statusEvents_jobExistsCheck (j : String) (l : List Event) :
    statusEvents (Event.jobExistsCheck j :: l) = statusEvents l := rfl

@[simp]
theorem statusEvents_jobCreate (j d : String) (l : List Event) :
    statusEvents (Event.jobCreate j d :: l) = statusEvents l := rfl

@[simp]
theorem statusEvents_jobConfig (j d : String) (l : List Event) :
    statusEvents (Event.jobConfig j d :: l) = statusEvents l := rfl

@[simp]
theorem statusEvents_buildTrigger (j : String) (p : Option (List (String × String)))
    (l : List Event) : statusEvents (Event.buildTrigger j p :: l) = statusEvents l := rfl

@[simp]
theorem statusEvents_queuePoll (q : Nat) (l : List Event) :
    statusEvents (Event.queuePoll q :: l) = statusEvents l := rfl

@[simp]
theorem statusEvents_sleep (ms : Nat) (l : List Event) :
    statusEvents (Event.sleep ms :: l) = statusEvents l := rfl

@[simp]
theorem statusEvents_webhook (t : String) (d : BuildStatusData) (l : List Event) :
    statusEvents (Event.webhook t d :: l) = d :: statusEvents l := rfl

@[simp]
theorem statusEvents_append (l₁ l₂ : List Event) :
    statusEvents (l₁ ++ l₂) = statusEvents l₁ ++ statusEvents l₂ :=
  List.filterMap_append l₁ l₂ _

@[simp]
theorem statusEvents_framed (s : String) : statusEvents (framed s) = [] := rfl

@[simp]
theorem statusEvents_logStreamWrites (les : List LogEvent) :
    statusEvents (logStreamWrites les) = [] := by
  induction les with
  | nil => rfl
  | cons e rest ih => cases e <;> simpa [logStreamWrites] using ih

@[simp]
theorem statusEvents_pollQueue (q : Nat) (rs : List (Option QueueItemResp)) :
    statusEvents (pollQueue q rs).1 = [] := by
  induction rs with
  | nil => rfl
  | cons r rest ih =>
    by_cases h : pollOk r = true <;> simp [pollQueue, h, ih]

@[simp]
theorem statusEvents_createOrUpdateJob (j : String) (registration : JenkinsRegistration)
    (gi : GoalInvocation) (env : JenkinsEnv) :
    statusEvents (createOrUpdateJob j registration gi env) = [] := by
  unfold createOrUpdateJob
  split_ifs <;> rfl

@[simp]
theorem statusEvents_triggerJob (j : String) (p : Option (List (String × String)))
    (env : JenkinsEnv) : statusEvents (triggerJob j p env).1 = [] := by
  unfold triggerJob
  cases env.buildAck with
  | none => rfl
  | some q =>
    cases h : (pollQueue q env.queueResponses).2 <;> simp [h]

/-- The status field of the webhook document is the status argument. -/
@[simp]
theorem buildStatusData_status (status : Option String) (ge : GoalEvent) (url : String)
    (no : Nat) : (buildStatusData status ge url no).status = status := rfl

/-- The build url field of the webhook document is the url argument. -/
@[simp]
theorem buildStatusData_buildUrl (status : Option String) (ge : GoalEvent) (url : String)
    (no : Nat) : (buildStatusData status ge url no).buildUrl = url := rfl

/-- The build number field of the webhook document is the number argument. -/
@[simp]
theorem buildStatusData_number (status : Option String) (ge : GoalEvent) (url : String)
    (no : Nat) : (buildStatusData status ge url no).number = no := rfl

/-! Claim theorems. -/

/-- C1: the outcome mapper sends SUCCESS to (passed, success), ABORTED to
(canceled, stopped), FAILURE to (failed, failure), and for every other
terminal result code the produced goal state is never `success` (both
status and state stay undefined). -/
theorem mapOutcome_terminal_codes :
    mapOutcome "SUCCESS" = (some "passed", some SdmGoalState.success) ∧
    mapOutcome "ABORTED" = (some "canceled", some SdmGoalState.stopped) ∧
    mapOutcome "FAILURE" = (some "failed", some SdmGoalState.failure) ∧
    ∀ r : String, r ≠ "SUCCESS" → r ≠ "ABORTED" → r ≠ "FAILURE" →
      (mapOutcome r).2 ≠ some SdmGoalState.success := by
  refine ⟨rfl, rfl, rfl, ?_⟩
  intro r h1 h2 h3
  simp [mapOutcome, h1, h2, h3]

/-- Witness for C1 at the concrete unrecognized code `UNSTABLE`. -/
theorem mapOutcome_terminal_codes_witness :
    mapOutcome "SUCCESS" = (some "passed", some SdmGoalState.success) ∧
    mapOutcome "ABORTED" = (some "canceled", some SdmGoalState.stopped) ∧
    mapOutcome "FAILURE" = (some "failed", some SdmGoalState.failure) ∧
    (mapOutcome "UNSTABLE").2 ≠ some SdmGoalState.success :=
  ⟨mapOutcome_terminal_codes.1, mapOutcome_terminal_codes.2.1,
   mapOutcome_terminal_codes.2.2.1,
   mapOutcome_terminal_codes.2.2.2 "UNSTABLE" (by decide) (by decide) (by decide)⟩

/-- C5 counterexample: a registration that supplies the (JS-falsy) empty
string as its definition; reconciliation performs no remote write and no
remote call at all, refuting "exactly one of the two remote writes" for
this supplied definition. -/
theorem createOrUpdateJob_empty_definition_cex :
    regEmptyDefinition.definition = some (StrOrFn.str "") ∧
    (createOrUpdateJob "app" regEmptyDefinition giApp envSuccess).countP isRemoteWriteEv = 0 ∧
    (createOrUpdateJob "app" regEmptyDefinition giApp envSuccess).countP isReconcileRemoteEv = 0 :=
  ⟨rfl, by decide, by decide⟩

/-- C5 (amended): for every registration whose definition is truthy (a
non-empty string or a function), one reconciliation run issues exactly
the existence check followed by exactly one of the two remote writes —
create when the job is reported absent, config overwrite when present —
never both; when the definition is absent or the empty string,
reconciliation issues no remote call at all. -/
theorem createOrUpdateJob_remote_calls (jobName : String)
    (registration : JenkinsRegistration) (gi : GoalInvocation) (env : JenkinsEnv) :
    (createOrUpdateJob jobName registration gi env).filter isReconcileRemoteEv =
      (if definitionTruthy registration then
        Event.jobExistsCheck jobName ::
          (if env.jobExists then [Event.jobConfig jobName (resolveDefinition registration gi)]
           else [Event.jobCreate jobName (resolveDefinition registration gi)])
      else []) := by
  unfold createOrUpdateJob
  split_ifs <;> rfl

/-- Witness for C5 (amended) at a concrete registration and environment. -/
theorem createOrUpdateJob_remote_calls_witness :
    (createOrUpdateJob "app" regApp giApp envSuccess).filter isReconcileRemoteEv =
      (if definitionTruthy regApp then
        Event.jobExistsCheck "app" ::
          (if envSuccess.jobExists then [Event.jobConfig "app" (resolveDefinition regApp giApp)]
           else [Event.jobCreate "app" (resolveDefinition regApp giApp)])
      else []) :=
  createOrUpdateJob_remote_calls "app" regApp giApp envSuccess

/-- C7 (code bug, evaluated at the failing input): the registration
supplies url `http://registration.example/` and user `reg-user`, the
process configuration supplies url `http://config.example/` and password
`cfg-pass`; the merged server takes the url from the configuration, not
the registration, and the execution connects with the configuration's
url — the configuration overrides registration-supplied fields instead
of only filling absent ones. -/
theorem executeJenkins_config_overrides_registration :
    regServerBoth.server = some { url := some "http://registration.example/",
                                  user := some "reg-user", password := none } ∧
    cfgOverride.sdmJenkins = some { url := some "http://config.example/",
                                    user := none, password := some "cfg-pass" } ∧
    serverOf regServerBoth giOverride.configuration =
      { url := some "http://config.example/", user := some "reg-user",
        password := some "cfg-pass" } ∧
    (executeJenkins regServerBoth envSuccess giOverride).2.2.head? =
      some (Event.connect "http://config.example/" (some "reg-user") (some "cfg-pass")) :=
  ⟨rfl, rfl, rfl, by decide⟩

/-- C9 counterexample: the execution does not leave every field of the
goal event unchanged — the description differs after the run. -/
theorem executeJenkins_description_mutation_cex :
    (executeJenkins regApp envSuccess giApp).2.1.description ≠ giApp.goalEvent.description := by
  decide

/-- C8 (code bug, evaluated at the failing input): in the concrete
successful run for job `app`, the completion announcement
`Jenkins job 'app' completed with success` is emitted framed between the
slash-dash-dash and backslash-dash-dash marker lines, and the starting
and started announcements are matched by exactly the `queued` and
`started` progress tests; but the completion announcement is matched by
no progress test at all — in particular not by the `completed` one,
whose pattern contains the literal characters `%s` and the misspelling
`complated`. -/
theorem jenkinsProgress_completed_pattern_mismatch :
    List.IsInfix (framed (completedJobLine "app" (some SdmGoalState.success)))
      (executeJenkins regApp envSuccess giApp).2.2 ∧
    JenkinsProgressTests.map ProgressTest.phase = ["queued", "started", "$1", "completed"] ∧
    JenkinsProgressTests.map (fun pt => pt.test (startingJobLine "app" (getParameters regApp giApp))) =
      [true, false, false, false] ∧
    JenkinsProgressTests.map (fun pt => pt.test (startedJobLine "app" 7)) =
      [false, true, false, false] ∧
    JenkinsProgressTests.map (fun pt => pt.test (completedJobLine "app" (some SdmGoalState.success))) =
      [false, false, false, false] :=
  ⟨by decide, rfl, by decide, by decide, by decide⟩

@[simp]
theorem pollIterations_zero (q : Nat) : pollIterations q 0 = [] := rfl

@[simp]
theorem pollIterations_succ (q n : Nat) :
    pollIterations q (n + 1) =
      Event.queuePoll q :: Event.sleep 500 :: pollIterations q n := by
  simp [pollIterations, List.replicate_succ]

theorem countP_poll_pollIterations (q n : Nat) :
    (pollIterations q n).countP isQueuePollEv = n := by
  induction n with
  | zero => rfl
  | succ n ih => simp [List.countP_cons, isQueuePollEv, ih]

theorem countP_sleep_pollIterations (q n : Nat) :
    (pollIterations q n).countP isSleepEv = n := by
  induction n with
  | zero => rfl
  | succ n ih => simp [List.countP_cons, isSleepEv, ih]

/-- When every response before `good` fails the loop condition and `good`
passes it, the do-while loop runs exactly once per response up to and
including `good` — each iteration being one queue poll followed by the
fixed 500 ms delay — and yields `good`'s executable. -/
theorem pollQueue_resolves (q : Nat) (bads : List (Option QueueItemResp))
    (good : Option QueueItemResp) (rest : List (Option QueueItemResp))
    (hb : bads.all (fun b => !pollOk b) = true) (hg : pollOk good = true) :
    pollQueue q (bads ++ good :: rest) =
      (pollIterations q (bads.length + 1), pollExec good) := by
  induction bads with
  | nil => simp [pollQueue, hg]
  | cons b bs ih =>
    simp only [List.all_cons, Bool.and_eq_true, Bool.not_eq_true'] at hb
    simp [pollQueue, hb.1, ih hb.2]

/-- C3: when the trigger acknowledgment is a valid queue id and only the
Nth queue response (here the response after `bads`, N = `bads.length + 1`)
carries a truthy executable build number, `triggerJob` issues exactly N
queue polls, each followed by the fixed 500 ms delay, and returns the
build reference taken from that response's executable (its number and
url). -/
theorem triggerJob_poll_correlation (jobName : String)
    (parameters : Option (List (String × String))) (env : JenkinsEnv) (queueId : Nat)
    (bads : List (Option QueueItemResp)) (good : Option QueueItemResp)
    (rest : List (Option QueueItemResp)) (ex : QueueExecutable)
    (hack : env.buildAck = some queueId)
    (hresp : env.queueResponses = bads ++ good :: rest)
    (hb : bads.all (fun b => !pollOk b) = true)
    (hg : pollOk good = true)
    (hex : pollExec good = some ex) :
    triggerJob jobName parameters env =
      (Event.buildTrigger jobName parameters :: pollIterations queueId (bads.length + 1),
       TriggerOutcome.resolved { id := ex.number, url := ex.url }) ∧
    (triggerJob jobName parameters env).1.countP isQueuePollEv = bads.length + 1 ∧
    (triggerJob jobName parameters env).1.countP isSleepEv = bads.length + 1 := by
  have h1 : triggerJob jobName parameters env =
      (Event.buildTrigger jobName parameters :: pollIterations queueId (bads.length + 1),
       TriggerOutcome.resolved { id := ex.number, url := ex.url }) := by
    unfold triggerJob
    rw [hack, hresp]
    simp only [pollQueue_resolves queueId bads good rest hb hg, hex]
  refine ⟨h1, ?_, ?_⟩ <;>
    rw [h1] <;>
    simp [List.countP_cons, isQueuePollEv, isSleepEv,
      countP_poll_pollIterations, countP_sleep_pollIterations]

/-- Witness for C3: in the concrete environment the executable appears on
the third poll as build 7; exactly three polls (and three delays) are
issued and build 7's reference is returned. -/
theorem triggerJob_poll_correlation_witness :
    triggerJob "app" none envSuccess =
      (Event.buildTrigger "app" none :: pollIterations 42 3,
       TriggerOutcome.resolved { id := 7, url := "http://jenkins.example/job/app/7/" }) ∧
    (triggerJob "app" none envSuccess).1.countP isQueuePollEv = 3 ∧
    (triggerJob "app" none envSuccess).1.countP isSleepEv = 3 :=
  triggerJob_poll_correlation "app" none envSuccess 42
    [none, some { executable := none }]
    (some { executable := some { number := 7, url := "http://jenkins.example/job/app/7/" } })
    [] { number := 7, url := "http://jenkins.example/job/app/7/" }
    rfl rfl (by decide) (by decide) rfl

@[simp]
theorem countP_poll_framed (s : String) : (framed s).countP isQueuePollEv = 0 := rfl

@[simp]
theorem countP_trigger_framed (s : String) : (framed s).countP isTriggerEv = 0 := rfl

@[simp]
theorem countP_poll_createOrUpdateJob (j : String) (registration : JenkinsRegistration)
    (gi : GoalInvocation) (env : JenkinsEnv) :
    (createOrUpdateJob j registration gi env).countP isQueuePollEv = 0 := by
  unfold createOrUpdateJob
  split_ifs <;> rfl

@[simp]
theorem countP_trigger_createOrUpdateJob (j : String) (registration : JenkinsRegistration)
    (gi : GoalInvocation) (env : JenkinsEnv) :
    (createOrUpdateJob j registration gi env).countP isTriggerEv = 0 := by
  unfold createOrUpdateJob
  split_ifs <;> rfl

/-- Every execution posts either no status event at all, or exactly a
`started` event followed by the terminal event with the mapped status,
both for the same build reference. -/
theorem statusEvents_executeJenkins (registration : JenkinsRegistration) (env : JenkinsEnv)
    (gi : GoalInvocation) :
    statusEvents (executeJenkins registration env gi).2.2 = [] ∨
    ∃ item : BuildRef,
      statusEvents (executeJenkins registration env gi).2.2 =
        [buildStatusData (some "started")
           { gi.goalEvent with
             description := some ("Jenkins " ++ codeLine (getJobName registration gi)) }
           item.url item.id,
         buildStatusData (mapOutcome env.buildDetail.result).1
           { gi.goalEvent with
             description := some ("Jenkins " ++ codeLine (getJobName registration gi)) }
           item.url item.id] := by
  by_cases hurl : urlTruthy (serverOf registration gi.configuration).url = true
  · by_cases hconv : registration.convergeOnly = some true
    · left
      simp [executeJenkins, hurl, hconv]
    · rcases htr : (triggerJob (getJobName registration gi) (getParameters registration gi) env).2
        with _ | item | _
      · left
        simp [executeJenkins, hurl, hconv, htr]
      · right
        exact ⟨item, by simp [executeJenkins, hurl, hconv, htr, updateBuildStatus]⟩
      · left
        simp [executeJenkins, hurl, hconv, htr]
  · left
    simp [executeJenkins, hurl]

/-- C6: in every execution, a status event with a terminal status
(passed, failed, canceled, or error) is always preceded, among the
status events of the same execution, by a `started` status event
carrying the same build url and build number. -/
theorem executeJenkins_started_before_terminal (registration : JenkinsRegistration)
    (env : JenkinsEnv) (gi : GoalInvocation) (l1 : List BuildStatusData)
    (d : BuildStatusData) (l2 : List BuildStatusData)
    (hsplit : statusEvents (executeJenkins registration env gi).2.2 = l1 ++ d :: l2)
    (hterm : isTerminalStatus d.status = true) :
    ∃ d' ∈ l1, d'.status = some "started" ∧ d'.buildUrl = d.buildUrl ∧
      d'.number = d.number := by
  rcases statusEvents_executeJenkins registration env gi with h | ⟨item, h⟩
  · rw [h] at hsplit
    exact absurd hsplit.symm (by simp)
  · rw [h] at hsplit
    cases l1 with
    | nil =>
      rw [List.nil_append] at hsplit
      obtain ⟨h1, h2⟩ := List.cons_eq_cons.mp hsplit
      rw [← h1] at hterm
      simp [isTerminalStatus] at hterm
    | cons a l1' =>
      rw [List.cons_append] at hsplit
      obtain ⟨ha, hrest⟩ := List.cons_eq_cons.mp hsplit
      cases l1' with
      | nil =>
        rw [List.nil_append] at hrest
        obtain ⟨hd, h2⟩ := List.cons_eq_cons.mp hrest
        subst ha
        subst hd
        exact ⟨_, List.mem_cons_self _ _, by simp, by simp, by simp⟩
      | cons b l1'' =>
        rw [List.cons_append] at hrest
        obtain ⟨hb, hrest2⟩ := List.cons_eq_cons.mp hrest
        exact absurd hrest2 (by simp)

/-- Witness for C6: in the concrete successful run the terminal `passed`
event is preceded by the `started` event for the same build url and
number. -/
theorem executeJenkins_started_before_terminal_witness :
    ∃ d' ∈ [startedDataApp], d'.status = some "started" ∧
      d'.buildUrl = passedDataApp.buildUrl ∧ d'.number = passedDataApp.number :=
  executeJenkins_started_before_terminal regApp envSuccess giApp [startedDataApp]
    passedDataApp [] (by decide) (by decide)

/-- C10: every status event of an execution that is not the `started`
event carries exactly the status value the outcome mapper produced for
the build's terminal result code. -/
theorem executeJenkins_terminal_status_matches (registration : JenkinsRegistration)
    (env : JenkinsEnv) (gi : GoalInvocation) (d : BuildStatusData)
    (hmem : d ∈ statusEvents (executeJenkins registration env gi).2.2)
    (hnot : d.status ≠ some "started") :
    d.status = (mapOutcome env.buildDetail.result).1 := by
  rcases statusEvents_executeJenkins registration env gi with h | ⟨item, h⟩
  · rw [h] at hmem
    simp at hmem
  · rw [h] at hmem
    simp only [List.mem_cons, List.mem_singleton, List.not_mem_nil, or_false] at hmem
    rcases hmem with rfl | rfl
    · simp at hnot
    · simp

/-- Witness for C10: in the concrete successful run the terminal event's
status equals the mapped status of `SUCCESS`. -/
theorem executeJenkins_terminal_status_matches_witness :
    passedDataApp.status = (mapOutcome envSuccess.buildDetail.result).1 :=
  executeJenkins_terminal_status_matches regApp envSuccess giApp passedDataApp
    (by decide) (by decide)

/-- C9 (amended): the execution leaves every field of the goal event
unchanged except `description`, which — unless the execution aborts on a
missing server url before reaching the assignment — it sets to
`Jenkins <job name in backticks>`; the rest of the invocation context is
read-only and the progress sink, the Jenkins server and the webhook
backend are the only output channels. -/
theorem executeJenkins_context_frame (registration : JenkinsRegistration) (env : JenkinsEnv)
    (gi : GoalInvocation) :
    (executeJenkins registration env gi).2.1 = gi.goalEvent ∨
    (executeJenkins registration env gi).2.1 =
      { gi.goalEvent with
        description := some ("Jenkins " ++ codeLine (getJobName registration gi)) } := by
  by_cases hurl : urlTruthy (serverOf registration gi.configuration).url = true
  · by_cases hconv : registration.convergeOnly = some true
    · right
      simp [executeJenkins, hurl, hconv]
    · rcases htr : (triggerJob (getJobName registration gi) (getParameters registration gi) env).2
        with _ | item | _ <;>
        · right
          simp [executeJenkins, hurl, hconv, htr]
  · left
    simp [executeJenkins, hurl]

/-- Witness for C9 (amended) at the concrete successful run. -/
theorem executeJenkins_context_frame_witness :
    (executeJenkins regApp envSuccess giApp).2.1 = giApp.goalEvent ∨
    (executeJenkins regApp envSuccess giApp).2.1 =
      { giApp.goalEvent with
        description := some ("Jenkins " ++ codeLine (getJobName regApp giApp)) } :=
  executeJenkins_context_frame regApp envSuccess giApp

/-- C2: when the trigger acknowledgment is NaN, the execution issues the
trigger call but not a single queue poll, posts no status event, streams
no log, and returns success with the generic `triggered` description —
its whole trace being the connect, the reconciliation block, the framed
starting block and the trigger call. -/
theorem executeJenkins_invalid_ack (registration : JenkinsRegistration) (env : JenkinsEnv)
    (gi : GoalInvocation)
    (hurl : urlTruthy (serverOf registration gi.configuration).url = true)
    (hconv : registration.convergeOnly ≠ some true)
    (hack : env.buildAck = none) :
    executeJenkins registration env gi =
      (ExecOutcome.done
        { state := some SdmGoalState.success
          description := "Jenkins " ++ codeLine (getJobName registration gi) ++ " triggered"
          externalUrls := none },
       { gi.goalEvent with
         description := some ("Jenkins " ++ codeLine (getJobName registration gi)) },
       Event.connect ((serverOf registration gi.configuration).url.getD "")
           (serverOf registration gi.configuration).user
           (serverOf registration gi.configuration).password ::
         createOrUpdateJob (getJobName registration gi) registration gi env ++
         framed (startingJobLine (getJobName registration gi) (getParameters registration gi)) ++
         [Event.buildTrigger (getJobName registration gi) (getParameters registration gi)]) ∧
    (executeJenkins registration env gi).2.2.countP isQueuePollEv = 0 ∧
    statusEvents (executeJenkins registration env gi).2.2 = [] := by
  have htr : triggerJob (getJobName registration gi) (getParameters registration gi) env =
      ([Event.buildTrigger (getJobName registration gi) (getParameters registration gi)],
       TriggerOutcome.invalidAck) := by
    unfold triggerJob
    rw [hack]
  have h1 : executeJenkins registration env gi =
      (ExecOutcome.done
        { state := some SdmGoalState.success
          description := "Jenkins " ++ codeLine (getJobName registration gi) ++ " triggered"
          externalUrls := none },
       { gi.goalEvent with
         description := some ("Jenkins " ++ codeLine (getJobName registration gi)) },
       Event.connect ((serverOf registration gi.configuration).url.getD "")
           (serverOf registration gi.configuration).user
           (serverOf registration gi.configuration).password ::
         createOrUpdateJob (getJobName registration gi) registration gi env ++
         framed (startingJobLine (getJobName registration gi) (getParameters registration gi)) ++
         [Event.buildTrigger (getJobName registration gi) (getParameters registration gi)]) := by
    simp [executeJenkins, hurl, hconv, htr]
  refine ⟨h1, ?_, ?_⟩
  · rw [h1]
    simp [List.countP_cons, List.countP_append, isQueuePollEv]
  · rw [h1]
    simp

/-- Witness for C2 at the concrete invalid-acknowledgment environment. -/
theorem executeJenkins_invalid_ack_witness :
    executeJenkins regApp envInvalidAck giApp =
      (ExecOutcome.done
        { state := some SdmGoalState.success
          description := "Jenkins " ++ codeLine (getJobName regApp giApp) ++ " triggered"
          externalUrls := none },
       { giApp.goalEvent with
         description := some ("Jenkins " ++ codeLine (getJobName regApp giApp)) },
       Event.connect ((serverOf regApp giApp.configuration).url.getD "")
           (serverOf regApp giApp.configuration).user
           (serverOf regApp giApp.configuration).password ::
         createOrUpdateJob (getJobName regApp giApp) regApp giApp envInvalidAck ++
         framed (startingJobLine (getJobName regApp giApp) (getParameters regApp giApp)) ++
         [Event.buildTrigger (getJobName regApp giApp) (getParameters regApp giApp)]) ∧
    (executeJenkins regApp envInvalidAck giApp).2.2.countP isQueuePollEv = 0 ∧
    statusEvents (executeJenkins regApp envInvalidAck giApp).2.2 = [] :=
  executeJenkins_invalid_ack regApp envInvalidAck giApp (by decide) (by decide) rfl

/-- C4: with `convergeOnly = true` no build-trigger call (and no queue
poll) is ever issued and the execution returns success with the
`converged` description — which indeed ends in `converged`, as the last
conjunct's split shows. -/
theorem executeJenkins_converge_only (registration : JenkinsRegistration) (env : JenkinsEnv)
    (gi : GoalInvocation)
    (hurl : urlTruthy (serverOf registration gi.configuration).url = true)
    (hconv : registration.convergeOnly = some true) :
    executeJenkins registration env gi =
      (ExecOutcome.done
        { state := some SdmGoalState.success
          description := "Jenkins " ++ codeLine (getJobName registration gi) ++ " converged"
          externalUrls := none },
       { gi.goalEvent with
         description := some ("Jenkins " ++ codeLine (getJobName registration gi)) },
       Event.connect ((serverOf registration gi.configuration).url.getD "")
           (serverOf registration gi.configuration).user
           (serverOf registration gi.configuration).password ::
         createOrUpdateJob (getJobName registration gi) registration gi env ++
         framed (notStartingLine (getJobName registration gi))) ∧
    (executeJenkins registration env gi).2.2.countP isTriggerEv = 0 ∧
    (executeJenkins registration env gi).2.2.countP isQueuePollEv = 0 ∧
    ("Jenkins " ++ codeLine (getJobName registration gi) ++ " converged") =
      ("Jenkins " ++ codeLine (getJobName registration gi) ++ " ") ++ "converged" := by
  have h1 : executeJenkins registration env gi =
      (ExecOutcome.done
        { state := some SdmGoalState.success
          description := "Jenkins " ++ codeLine (getJobName registration gi) ++ " converged"
          externalUrls := none },
       { gi.goalEvent with
         description := some ("Jenkins " ++ codeLine (getJobName registration gi)) },
       Event.connect ((serverOf registration gi.configuration).url.getD "")
           (serverOf registration gi.configuration).user
           (serverOf registration gi.configuration).password ::
         createOrUpdateJob (getJobName registration gi) registration gi env ++
         framed (notStartingLine (getJobName registration gi))) := by
    simp [executeJenkins, hurl, hconv]
  refine ⟨h1, ?_, ?_, ?_⟩
  · rw [h1]
    simp [List.countP_cons, List.countP_append, isTriggerEv]
  · rw [h1]
    simp [List.countP_cons, List.countP_append, isQueuePollEv]
  · have h2 : (" converged" : String) = " " ++ "converged" := by decide
    rw [h2, ← String.append_assoc]

/-- Witness for C4 at a concrete convergence-only registration. -/
theorem executeJenkins_converge_only_witness :
    executeJenkins regServerBoth envSuccess giApp =
      (ExecOutcome.done
        { state := some SdmGoalState.success
          description := "Jenkins " ++ codeLine (getJobName regServerBoth giApp) ++ " converged"
          externalUrls := none },
       { giApp.goalEvent with
         description := some ("Jenkins " ++ codeLine (getJobName regServerBoth giApp)) },
       Event.connect ((serverOf regServerBoth giApp.configuration).url.getD "")
           (serverOf regServerBoth giApp.configuration).user
           (serverOf regServerBoth giApp.configuration).password ::
         createOrUpdateJob (getJobName regServerBoth giApp) regServerBoth giApp envSuccess ++
         framed (notStartingLine (getJobName regServerBoth giApp))) ∧
    (executeJenkins regServerBoth envSuccess giApp).2.2.countP isTriggerEv = 0 ∧
    (executeJenkins regServerBoth envSuccess giApp).2.2.countP isQueuePollEv = 0 ∧
    ("Jenkins " ++ codeLine (getJobName regServerBoth giApp) ++ " converged") =
      ("Jenkins " ++ codeLine (getJobName regServerBoth giApp) ++ " ") ++ "converged" :=
  executeJenkins_converge_only regServerBoth envSuccess giApp (by decide) rfl

end SdmJenkins
